import Mathlib

/-!
Verification of the fractal viewport engine of the mandelbrot repository
(src/mandelbrot.c and src/graphics.c) against its natural-language
specification.  C doubles are embedded as real numbers, C ints as
integers or naturals, and the IEEE infinity threshold as the top element
of the extended reals.  Functions whose definitions live in files absent
from src/ (header.h, the pixel-buffer builder) are modelled from the
specification and marked as such in their doc comments.
-/

namespace Mandelbrot

/-- Color: the packed RGB triple of header.h, a union of a packed
hexcode with byte channel fields (the hexcode/rgb punning of
graphics_init, the byte masks at graphics.c lines 23-25, and the
channels passed to SDL_SetRenderDrawColor all pin 8-bit channels).
The channel decomposition of the packed hexcode follows the masks
(RED_MASK 0x0000ff, GREEN_MASK 0x00ff00, BLUE_MASK 0xff0000).  The
carrier of a channel is a natural number; every store of a computed
channel value reduces it mod 256, as the C assignment into a byte
field wraps, so program-constructed colors hold byte values. -/
structure Color where
  r : ℕ
  g : ℕ
  b : ℕ
deriving DecidableEq

/-- Channel accessors for a packed hexcode, per the masks of graphics.c:
red is the low byte, green the middle byte, blue the high byte. -/
def Color.ofHex (hex : ℕ) : Color :=
  ⟨hex % 256, hex / 256 % 256, hex / 65536 % 256⟩

/-- IN_SET_COLOR macro, graphics.c line 17. -/
def IN_SET_COLOR : ℕ := 0x050505

/-- PALETTE_START macro, graphics.c line 18. -/
def PALETTE_START : ℕ := 0x000022

/-- PALETTE_END macro, graphics.c line 19. -/
def PALETTE_END : ℕ := 0xd62f2f

/-- MOVE_RATIO macro, graphics.c line 10. -/
def MOVE_RATIO : ℝ := 10

/-- ZOOM_RATIO macro, graphics.c line 11. -/
def ZOOM_RATIO : ℝ := 1.1

/-- Modelled from the spec: the _INFINITY threshold used by
mandelbrot_in_set comes from header.h, which is not under src/.  The
spec states the escape comparison is "against a value that never
triggers true escape detection" (an unbounded/"infinity" sentinel), so
the threshold is the top element of the extended reals, which no
embedded double exceeds — exactly as no IEEE double compares strictly
greater than +infinity. -/
def _INFINITY : EReal := ⊤

/-- The escape comparison of mandelbrot.c line 20 is decidably false:
no real magnitude compares strictly greater than the infinity
threshold. -/
instance infinity_compare_decidable (x : ℝ) : Decidable ((x : EReal) > _INFINITY) :=
  isFalse not_top_lt

/-- Loop body of mandelbrot_in_set (mandelbrot.c lines 17-22), with the
remaining iteration count as structural fuel.  Each iteration computes
z = z^2 + c (cpow(z, 2) + c) and returns the loop index i if
cabs(z) > _INFINITY.  The result is the pair of the returned C int
(the escape index, or -1 once the fuel runs out, mandelbrot.c line 23)
and the number of loop iterations executed. -/
noncomputable def in_set_from (c : ℂ) : ℕ → ℂ → ℕ → ℤ × ℕ
  | 0, _, i => (-1, i)
  | fuel + 1, z, i =>
    if (Complex.abs (z ^ 2 + c) : EReal) > _INFINITY then ((i : ℤ), i + 1)
    else in_set_from c fuel (z ^ 2 + c) (i + 1)

/-- mandelbrot_in_set (mandelbrot.c lines 13-24): iterate z from 0 for
up to MAX_ITERATION steps.  MAX_ITERATION is a positive compile-time
constant of header.h (absent from src/) and is passed explicitly.
Returns the escape index, or -1 for bounded. -/
noncomputable def mandelbrot_in_set (maxIter : ℕ) (c : ℂ) : ℤ :=
  (in_set_from c maxIter 0 0).1

/-- Number of loop iterations mandelbrot_in_set executes. -/
noncomputable def mandelbrot_steps (maxIter : ℕ) (c : ℂ) : ℕ :=
  (in_set_from c maxIter 0 0).2

/-- The escape comparison never evaluates true, so the loop always
consumes all of its fuel and falls through to the -1 return. -/
lemma in_set_from_eq (c : ℂ) :
    ∀ (fuel : ℕ) (z : ℂ) (i : ℕ), in_set_from c fuel z i = (-1, i + fuel) := by
  intro fuel
  induction fuel with
  | zero => intro z i; simp [in_set_from]
  | succ n ih =>
    intro z i
    have hno : ¬ (Complex.abs (z ^ 2 + c) : EReal) > _INFINITY := not_top_lt
    rw [in_set_from, if_neg hno, ih]
    congr 1
    omega

/-- C1: for every complex input c, the escape comparison against the
infinity threshold never evaluates true, so mandelbrot_in_set runs all
MAX_ITERATION iterations of z <- z^2 + c and returns the bounded
sentinel -1, classifying every point as in-set. -/
theorem mandelbrot_never_escapes (maxIter : ℕ) (c : ℂ) :
    mandelbrot_in_set maxIter c = -1 ∧ mandelbrot_steps maxIter c = maxIter := by
  unfold mandelbrot_in_set mandelbrot_steps
  rw [in_set_from_eq]
  simp

/-- C2: contrary to the spec's known-membership case
evaluate(2+0i) == Escaped(0), the code's evaluator returns the bounded
sentinel -1 for c = 2+0i (for every iteration bound), never the escape
index 0: the infinity comparison disables escape detection. -/
theorem evaluate_two_stays_bounded (maxIter : ℕ) :
    mandelbrot_in_set maxIter 2 = -1 ∧ mandelbrot_in_set maxIter 2 ≠ 0 := by
  have h := in_set_from_eq 2 maxIter 0 0
  unfold mandelbrot_in_set
  rw [h]
  exact ⟨rfl, by simp⟩

/-- C8: for all complex c, the evaluator returns either -1 (bounded) or
an escape index n with 0 <= n < MAX_ITERATION, and its loop executes at
most MAX_ITERATION iterations. -/
theorem evaluate_result_bound (maxIter : ℕ) (c : ℂ) :
    (mandelbrot_in_set maxIter c = -1 ∨
      (0 ≤ mandelbrot_in_set maxIter c ∧ mandelbrot_in_set maxIter c < (maxIter : ℤ))) ∧
    mandelbrot_steps maxIter c ≤ maxIter := by
  unfold mandelbrot_in_set mandelbrot_steps
  rw [in_set_from_eq]
  exact ⟨Or.inl rfl, by simp⟩

/-- create_palette (graphics.c lines 214-231): per-channel step is the
integer-truncating division abs(stop.channel - start.channel) /
MAX_ITERATION (C int division of a non-negative numerator by a positive
divisor, i.e. natural division); slot i for i < MAX_ITERATION stores
i * step + start.channel per channel into a byte field, which wraps
mod 256 on overshoot; the terminal slot holds the zero hexcode.  The C
parameter named end is called stop here because end is a Lean
keyword. -/
def create_palette (maxIter : ℕ) (start stop : Color) : List Color :=
  let red_step := ((stop.r : ℤ) - (start.r : ℤ)).natAbs / maxIter
  let green_step := ((stop.g : ℤ) - (start.g : ℤ)).natAbs / maxIter
  let blue_step := ((stop.b : ℤ) - (start.b : ℤ)).natAbs / maxIter
  (List.range maxIter).map (fun i =>
    ⟨(i * red_step + start.r) % 256, (i * green_step + start.g) % 256,
     (i * blue_step + start.b) % 256⟩)
    ++ [Color.ofHex 0]

/-- Modelled from the spec: map_range is declared in header.h and used
by graphics.c, but its definition is not under src/.  The spec gives
out = out_lo + (in - in_domain_lo) * (out_hi - out_lo) /
(in_domain_hi - in_domain_lo). -/
noncomputable def map_range (x in_lo in_hi out_lo out_hi : ℝ) : ℝ :=
  out_lo + (x - in_lo) * (out_hi - out_lo) / (in_hi - in_lo)

/-- GState (header.h, absent from src/): the viewport-relevant fields
read and written by graphics.c.  The SDL window/renderer/texture
handles, the immutable palette and in-set color, and the dead moving
flag are owned by the excluded windowing shell and omitted. -/
structure GState where
  center_x : ℝ
  center_y : ℝ
  real_range : ℝ
  imag_range : ℝ
  window_w : ℕ
  window_h : ℕ
  running : Bool
  changed : Bool

/-- REAL_LO macro, graphics.c line 12. -/
noncomputable def REAL_LO (s : GState) : ℝ := s.center_x - s.real_range / 2

/-- REAL_HI macro, graphics.c line 13. -/
noncomputable def REAL_HI (s : GState) : ℝ := s.center_x + s.real_range / 2

/-- IMAG_LO macro, graphics.c line 14. -/
noncomputable def IMAG_LO (s : GState) : ℝ := s.center_y - s.imag_range / 2

/-- IMAG_HI macro, graphics.c line 15. -/
noncomputable def IMAG_HI (s : GState) : ℝ := s.center_y + s.imag_range / 2

/-- recenter_x (graphics.c lines 252-256): maps the pixel x coordinate
over the domain [0, window_w] onto the real-axis bounds. -/
noncomputable def recenter_x (s : GState) (x : ℕ) : GState :=
  { s with center_x := map_range x 0 s.window_w (REAL_LO s) (REAL_HI s) }

/-- recenter_y (graphics.c lines 258-262): maps the pixel y coordinate
onto the imaginary-axis bounds.  The pixel domain the source passes is
0 to state->window_w — the window width, not the height. -/
noncomputable def recenter_y (s : GState) (y : ℕ) : GState :=
  { s with center_y := map_range y 0 s.window_w (IMAG_LO s) (IMAG_HI s) }

/-- recenter (graphics.c lines 246-250): recenter_x first, then
recenter_y on the updated state. -/
noncomputable def recenter (s : GState) (x y : ℕ) : GState :=
  recenter_y (recenter_x s x) y

/-- zoom_in (graphics.c lines 264-268). -/
noncomputable def zoom_in (s : GState) (ratio : ℝ) : GState :=
  { s with real_range := s.real_range / ratio, imag_range := s.imag_range / ratio }

/-- zoom_out (graphics.c lines 270-274). -/
noncomputable def zoom_out (s : GState) (ratio : ℝ) : GState :=
  { s with real_range := s.real_range * ratio, imag_range := s.imag_range * ratio }

/-- Input events delivered by the excluded SDL event source, as
dispatched by event_handler (graphics.c lines 140-212): quit, the four
pan keys (arrow/vi equivalents), the zoom keys, the mouse wheel with
its y delta, a right mouse button press with pixel coordinates, and a
constructor for every other polled event (unhandled keys, other
buttons, motion, ...) which falls through the switch. -/
inductive Event where
  | quit
  | key_up
  | key_down
  | key_left
  | key_right
  | key_plus
  | key_minus
  | key_q
  | wheel (y : ℤ)
  | button_right (x y : ℕ)
  | other

/-- One round of the SDL_PollEvent loop body of event_handler
(graphics.c lines 143-211): the switch dispatch, followed by the
unconditional state->changed = true at line 210, which runs for every
polled event. -/
noncomputable def apply_event (s : GState) (e : Event) : GState :=
  let t := match e with
    | Event.quit => { s with running := false }
    | Event.key_up => { s with center_y := s.center_y - s.imag_range / MOVE_RATIO }
    | Event.key_down => { s with center_y := s.center_y + s.imag_range / MOVE_RATIO }
    | Event.key_left => { s with center_x := s.center_x - s.real_range / MOVE_RATIO }
    | Event.key_right => { s with center_x := s.center_x + s.real_range / MOVE_RATIO }
    | Event.key_plus => zoom_in s ZOOM_RATIO
    | Event.key_minus => zoom_out s ZOOM_RATIO
    | Event.key_q => { s with running := false }
    | Event.wheel y =>
        if y = -1 then zoom_in s ZOOM_RATIO
        else if y = 1 then zoom_out s ZOOM_RATIO
        else s
    | Event.button_right x y => recenter s x y
    | Event.other => s
  { t with changed := true }

/-- event_handler (graphics.c lines 140-212): drains the queued events
in order, applying each as a state transition. -/
noncomputable def event_handler (s : GState) (events : List Event) : GState :=
  events.foldl apply_event s

/-- Arguments of one mandelbrot_pixels invocation made by update
(graphics.c lines 103-105): the derived plane bounds and the window
dimensions of the state it renders. -/
structure BuildArgs where
  real_lo : ℝ
  real_hi : ℝ
  imag_lo : ℝ
  imag_hi : ℝ
  w : ℕ
  h : ℕ

/-- The recompute arguments update passes for a state (graphics.c
lines 101-107). -/
noncomputable def build_args (s : GState) : BuildArgs :=
  ⟨REAL_LO s, REAL_HI s, IMAG_LO s, IMAG_HI s, s.window_w, s.window_h⟩

/-- One iteration of the graphics_run loop body (graphics.c lines
89-98): drain all queued events, then, if the changed flag is set,
perform exactly one recompute-and-present from the resulting state and
clear the flag.  Returns the post-tick state and the list of
recompute invocations performed this tick. -/
noncomputable def graphics_tick (s : GState) (events : List Event) : GState × List BuildArgs :=
  let s1 := event_handler s events
  if s1.changed then ({ s1 with changed := false }, [build_args s1]) else (s1, [])

/-- A concrete viewport used by the concrete-input theorems: 100 x 50
window, center at the origin, both ranges 2, not dirty. -/
noncomputable def test_state : GState :=
  ⟨0, 0, 2, 2, 100, 50, true, false⟩

/-- A concrete square even-sized viewport: 100 x 100 window, center
(-1/2, 1/4), ranges 3 and 2, not dirty. -/
noncomputable def square_state : GState :=
  ⟨-(1 / 2), 1 / 4, 3, 2, 100, 100, true, false⟩

/-- Every polled event leaves the changed flag set: the assignment at
graphics.c line 210 runs after the switch for each event. -/
lemma apply_event_changed (s : GState) (e : Event) : (apply_event s e).changed = true := rfl

/-- Draining a non-empty event queue leaves the changed flag set. -/
lemma event_handler_changed (events : List Event) :
    ∀ s : GState, events ≠ [] → (event_handler s events).changed = true := by
  induction events with
  | nil => intro s h; exact absurd rfl h
  | cons e es ih =>
    intro s _
    cases es with
    | nil => exact apply_event_changed s e
    | cons e2 es2 => exact ih (apply_event s e) (by simp)

/-- C3: evaluated at the concrete viewport test_state (100 x 50 window,
center (0,0), ranges 2) and pixel (0, 25), recenter sets center.y to
-1/2 — the pixel y coordinate is mapped over [0, window_w) = [0, 100) —
whereas the pixel-to-plane mapping of the claim, over [0, height) =
[0, 50), yields 0.  The real part and both ranges are handled as the
claim says. -/
theorem recenter_y_maps_over_width :
    (recenter test_state 0 25).center_y = -(1 / 2) ∧
    map_range 25 0 (test_state.window_h : ℝ) (IMAG_LO test_state) (IMAG_HI test_state) = 0 ∧
    (recenter test_state 0 25).center_x = map_range 0 0 (test_state.window_w : ℝ) (REAL_LO test_state) (REAL_HI test_state) ∧
    (recenter test_state 0 25).real_range = test_state.real_range ∧
    (recenter test_state 0 25).imag_range = test_state.imag_range := by
  norm_num [recenter, recenter_x, recenter_y, map_range, REAL_LO, REAL_HI,
    IMAG_LO, IMAG_HI, test_state]

/-- C4 counterexample: for the viewport test_state (window 100 x 50,
center (0,0), ranges 2), recentering at the middle pixel
(width/2, height/2) = (50, 25) moves center.y from 0 to -1/2, so the
claim is false for this viewport. -/
theorem recenter_middle_moves_center :
    (recenter test_state (test_state.window_w / 2) (test_state.window_h / 2)).center_y
      ≠ test_state.center_y := by
  norm_num [recenter, recenter_x, recenter_y, map_range, REAL_LO, REAL_HI,
    IMAG_LO, IMAG_HI, test_state]

/-- C4 amended: for every viewport whose window width is even, positive
and equal to its window height, RecenterAtPixel(width/2, height/2)
leaves the center unchanged. -/
theorem recenter_middle_fixes_center (s : GState) (hw : 0 < s.window_w)
    (he : 2 ∣ s.window_w) (hsq : s.window_h = s.window_w) :
    (recenter s (s.window_w / 2) (s.window_h / 2)).center_x = s.center_x ∧
    (recenter s (s.window_w / 2) (s.window_h / 2)).center_y = s.center_y := by
  obtain ⟨k, hk⟩ := he
  have hk0 : 0 < k := by omega
  have hkR : (k : ℝ) ≠ 0 := Nat.cast_ne_zero.mpr (by omega)
  have h2 : s.window_w / 2 = k := by omega
  have h2' : s.window_h / 2 = k := by omega
  constructor <;>
    · simp only [recenter, recenter_x, recenter_y, REAL_LO, REAL_HI, IMAG_LO,
        IMAG_HI, map_range, h2, h2', hk]
      push_cast
      field_simp
      ring

/-- C4 witness: the amended statement instantiated at the concrete
square viewport square_state (100 x 100 window). -/
theorem recenter_middle_fixes_center_witness :
    0 < square_state.window_w ∧ 2 ∣ square_state.window_w ∧
    square_state.window_h = square_state.window_w ∧
    ((recenter square_state (square_state.window_w / 2) (square_state.window_h / 2)).center_x
        = square_state.center_x ∧
     (recenter square_state (square_state.window_w / 2) (square_state.window_h / 2)).center_y
        = square_state.center_y) :=
  ⟨by norm_num [square_state], by norm_num [square_state], rfl,
    recenter_middle_fixes_center square_state (by norm_num [square_state])
      (by norm_num [square_state]) rfl⟩

/-- C5 counterexample: starting from the non-dirty viewport test_state,
polling a single Quit event sets running to false but also sets the
changed flag, a false-to-true dirty transition on a quit request — the
assignment at graphics.c line 210 runs for every polled event. -/
theorem quit_marks_dirty :
    test_state.changed = false ∧
    (event_handler test_state [Event.quit]).running = false ∧
    (event_handler test_state [Event.quit]).changed = true :=
  ⟨rfl, rfl, rfl⟩

/-- C5 amended: a Quit event sets running to false and, like every
other polled event, marks the viewport dirty: the handler sets the
changed flag after each polled event, not only on viewport-mutating
ones. -/
theorem quit_sets_running_and_dirty (s : GState) :
    (apply_event s Event.quit).running = false ∧
    (apply_event s Event.quit).changed = true ∧
    ∀ e : Event, (apply_event s e).changed = true :=
  ⟨rfl, rfl, fun e => apply_event_changed s e⟩

/-- C9: a tick first drains the whole event queue and only then checks
the changed flag; a non-empty queue leaves the flag set, so the tick
performs exactly one recompute, with the bounds and dimensions of the
state obtained by folding all the events, and clears the flag. -/
theorem tick_coalesces_events (s : GState) (events : List Event) (h : events ≠ []) :
    graphics_tick s events =
      ({ event_handler s events with changed := false },
       [build_args (event_handler s events)]) := by
  have hc := event_handler_changed events s h
  simp [graphics_tick, hc]

/-- C9 witness: the single-build tick instantiated at test_state with a
one-element event queue. -/
theorem tick_coalesces_events_witness :
    ([Event.key_up] : List Event) ≠ [] ∧
    graphics_tick test_state [Event.key_up] =
      ({ event_handler test_state [Event.key_up] with changed := false },
       [build_args (event_handler test_state [Event.key_up])]) :=
  ⟨by simp, tick_coalesces_events test_state [Event.key_up] (by simp)⟩

/-- C10: zooming in by any positive ratio and then zooming out by the
same ratio restores both ranges exactly (the embedding works over the
reals, so within floating-point tolerance holds a fortiori). -/
theorem zoom_inverse (s : GState) (r : ℝ) (h : 0 < r) :
    (zoom_out (zoom_in s r) r).real_range = s.real_range ∧
    (zoom_out (zoom_in s r) r).imag_range = s.imag_range := by
  have hr : r ≠ 0 := ne_of_gt h
  constructor <;> simp [zoom_in, zoom_out, div_mul_cancel₀ _ hr]

/-- C10 witness: the zoom round trip instantiated at test_state with
ratio 2. -/
theorem zoom_inverse_witness :
    (0 : ℝ) < 2 ∧
    ((zoom_out (zoom_in test_state 2) 2).real_range = test_state.real_range ∧
     (zoom_out (zoom_in test_state 2) 2).imag_range = test_state.imag_range) :=
  ⟨by norm_num, zoom_inverse test_state 2 (by norm_num)⟩

/-- C7 counterexample: at start red 255, end red 0 and MAX_ITERATION
2 the red step is 255 / 2 = 127, and slot 1 stores the overshooting
255 + 1 * 127 = 382 into a byte channel, which wraps to 126 — not the
382 the claim's unreduced formula start.channel + i * step asserts. -/
theorem create_palette_overshoot_wraps :
    ((create_palette 2 ⟨255, 0, 0⟩ ⟨0, 0, 0⟩).getD 1 ⟨0, 0, 0⟩).r = 126 ∧
    ((create_palette 2 ⟨255, 0, 0⟩ ⟨0, 0, 0⟩).getD 1 ⟨0, 0, 0⟩).r ≠
      255 + 1 * ((((0 : ℤ) - (255 : ℤ)).natAbs) / 2) := by
  decide

/-- C7 amended: create_palette builds a table of exactly
MAX_ITERATION + 1 colors; for each channel independently the step is
the integer-truncating division of the absolute channel difference by
MAX_ITERATION; slot i for i < MAX_ITERATION holds
(start.channel + i * step) mod 256 per channel — the C byte store
wraps on overshoot; and the terminal slot holds the zero sentinel
color. -/
theorem create_palette_table (maxIter : ℕ) (start stop : Color) (_hpos : 0 < maxIter) :
    (create_palette maxIter start stop).length = maxIter + 1 ∧
    (∀ i : ℕ, i < maxIter →
      (create_palette maxIter start stop).getD i ⟨0, 0, 0⟩ =
        ⟨(start.r + i * (((stop.r : ℤ) - (start.r : ℤ)).natAbs / maxIter)) % 256,
         (start.g + i * (((stop.g : ℤ) - (start.g : ℤ)).natAbs / maxIter)) % 256,
         (start.b + i * (((stop.b : ℤ) - (start.b : ℤ)).natAbs / maxIter)) % 256⟩) ∧
    (create_palette maxIter start stop).getD maxIter ⟨0, 0, 0⟩ = Color.ofHex 0 := by
  refine ⟨by simp [create_palette], ?_, ?_⟩
  · intro i hi
    rw [List.getD_eq_getElem?_getD, create_palette]
    rw [List.getElem?_append_left (by simpa using hi)]
    rw [List.getElem?_map, List.getElem?_range hi]
    simp [Nat.add_comm]
  · rw [List.getD_eq_getElem?_getD, create_palette]
    rw [List.getElem?_append_right (by simp)]
    simp

/-- C7 witness: the amended palette shape instantiated at
MAX_ITERATION = 4, start color (10, 20, 30) and end color
(255, 0, 30). -/
theorem create_palette_table_witness :
    0 < 4 ∧
    ((create_palette 4 ⟨10, 20, 30⟩ ⟨255, 0, 30⟩).length = 4 + 1 ∧
     (∀ i : ℕ, i < 4 →
       (create_palette 4 ⟨10, 20, 30⟩ ⟨255, 0, 30⟩).getD i ⟨0, 0, 0⟩ =
         ⟨(10 + i * ((((255 : ℤ) - (10 : ℤ)).natAbs) / 4)) % 256,
          (20 + i * ((((0 : ℤ) - (20 : ℤ)).natAbs) / 4)) % 256,
          (30 + i * ((((30 : ℤ) - (30 : ℤ)).natAbs) / 4)) % 256⟩) ∧
     (create_palette 4 ⟨10, 20, 30⟩ ⟨255, 0, 30⟩).getD 4 ⟨0, 0, 0⟩ = Color.ofHex 0) :=
  ⟨by norm_num, create_palette_table 4 ⟨10, 20, 30⟩ ⟨255, 0, 30⟩ (by norm_num)⟩

/-- The palette the program builds once at startup (graphics_init,
graphics.c lines 57-59), from the PALETTE_START and PALETTE_END
hexcodes. -/
def program_palette (maxIter : ℕ) : List Color :=
  create_palette maxIter (Color.ofHex PALETTE_START) (Color.ofHex PALETTE_END)

/-- The separately-held in-set color stored in the state at
graphics_init (graphics.c line 75). -/
def in_set_color : Color := Color.ofHex IN_SET_COLOR

/-- Modelled from the spec: mandelbrot_pixels, the pixel-buffer builder
declared in header.h and invoked by update (graphics.c lines 103-105),
is not under src/.  Per spec section 4.3: for each pixel row y in
[0, height) and column x in [0, width), map the pixel to a plane point
with map_range (x over [0, width) to [realLo, realHi], y over
[0, height) to [imagLo, imagHi]), invoke the evaluator on it, and write
palette[n] for an escape index n and the in-set color for the bounded
sentinel.  The raster is the row-major grid of colors.  The spec
supplies the in-set color as a parameter; the src call site passes only
the palette. -/
noncomputable def mandelbrot_pixels (maxIter : ℕ) (real_lo real_hi imag_lo imag_hi : ℝ)
    (w h : ℕ) (palette : List Color) (in_set : Color) : List (List Color) :=
  (List.range h).map fun (y : ℕ) =>
    (List.range w).map fun (x : ℕ) =>
      let n := mandelbrot_in_set maxIter ⟨map_range (x : ℝ) 0 w real_lo real_hi,
                                          map_range (y : ℝ) 0 h imag_lo imag_hi⟩
      if n = -1 then in_set else palette.getD n.toNat ⟨0, 0, 0⟩

/-- Every slot of the program's palette differs from the in-set color:
gradient slots have red channel at least PALETTE_START's 34, and the
terminal slot is the zero color, while the in-set color has red
channel 5. -/
lemma program_palette_ne_in_set (maxIter : ℕ) :
    ∀ col ∈ program_palette maxIter, col ≠ in_set_color := by
  intro col hcol
  simp only [program_palette, create_palette, List.mem_append, List.mem_map,
    List.mem_range, List.mem_singleton] at hcol
  rcases hcol with ⟨i, hi, rfl⟩ | rfl
  · intro heq
    have hr := congrArg Color.r heq
    simp only [in_set_color, IN_SET_COLOR, Color.ofHex, PALETTE_START, PALETTE_END] at hr
    norm_num at hr
    have hle : i * (13 / maxIter) ≤ 13 :=
      calc i * (13 / maxIter) ≤ maxIter * (13 / maxIter) :=
            Nat.mul_le_mul_right _ (Nat.le_of_lt hi)
        _ = 13 / maxIter * maxIter := Nat.mul_comm _ _
        _ ≤ 13 := Nat.div_mul_le_self 13 maxIter
    omega
  · decide

/-- C6: each pixel of the raster is colored by the evaluator's result:
an escape index n selects palette[n], and the bounded sentinel selects
the separately-held in-set color, which coincides with no slot of the
program's palette — in particular not with the terminal slot. -/
theorem pixels_follow_evaluator (maxIter : ℕ) (rlo rhi ilo ihi : ℝ) (w h x y : ℕ)
    (hx : x < w) (hy : y < h) :
    (((mandelbrot_pixels maxIter rlo rhi ilo ihi w h (program_palette maxIter)
          in_set_color).getD y []).getD x ⟨0, 0, 0⟩ =
      (if mandelbrot_in_set maxIter ⟨map_range x 0 w rlo rhi, map_range y 0 h ilo ihi⟩ = -1
       then in_set_color
       else (program_palette maxIter).getD
         (mandelbrot_in_set maxIter
           ⟨map_range x 0 w rlo rhi, map_range y 0 h ilo ihi⟩).toNat ⟨0, 0, 0⟩)) ∧
    (∀ col ∈ program_palette maxIter, col ≠ in_set_color) := by
  refine ⟨?_, program_palette_ne_in_set maxIter⟩
  simp only [mandelbrot_pixels, List.getD_eq_getElem?_getD, List.getElem?_map,
    List.getElem?_range hy, List.getElem?_range hx, Option.map_some', Option.getD_some]

/-- C6 witness: the pixel coloring rule instantiated at MAX_ITERATION
= 3, bounds [-2, 1] x [-1, 1], a 4 x 2 window and pixel (1, 1). -/
theorem pixels_follow_evaluator_witness :
    1 < 4 ∧ 1 < 2 ∧
    ((((mandelbrot_pixels 3 (-2) 1 (-1) 1 4 2 (program_palette 3)
          in_set_color).getD 1 []).getD 1 ⟨0, 0, 0⟩ =
      (if mandelbrot_in_set 3 ⟨map_range 1 0 4 (-2) 1, map_range 1 0 2 (-1) 1⟩ = -1
       then in_set_color
       else (program_palette 3).getD
         (mandelbrot_in_set 3
           ⟨map_range 1 0 4 (-2) 1, map_range 1 0 2 (-1) 1⟩).toNat ⟨0, 0, 0⟩)) ∧
     (∀ col ∈ program_palette 3, col ≠ in_set_color)) :=
  ⟨by norm_num, by norm_num,
    pixels_follow_evaluator 3 (-2) 1 (-1) 1 4 2 1 1 (by norm_num) (by norm_num)⟩

end Mandelbrot
